import Mathlib

/-!
Verification of the natural-language specification of
sir-cakes-alot/mistral-ai-example against its source, `src/main.py`.

The program's text is modelled as `List Char`.  The inline-marker scanner
(main.py lines 244-249), the sandboxed file tool (lines 11-53), the tool
executor (lines 190-211), the restricted-calculator branch of the native
tool-call path (lines 321-325), the streaming orchestrator
(`get_devstral_response`, lines 214-377) and history truncation
(line 392) are embedded as executable Lean definitions below, and the
spec's claims about them are settled as theorems.
-/

set_option maxHeartbeats 1000000

namespace DevstralChat

/-!
## Inline-marker scanner

Models `re.search` of the pattern `\[\[(\w+):([^\]]*)\]\]` from
`get_devstral_response` (main.py lines 244-249): the first occurrence of
`[[`, one or more word characters (the tool name), `:`, zero or more
non-`]` characters (the argument string), `]]`.  `re.search` scans start
positions left to right; at a given start this pattern matches without
backtracking (the greedy `\w+` must be followed by `:`, which is not a
word character, and the greedy `[^\]]*` must be followed by `]`), so the
match at the leftmost viable start is unique.
-/

/-- ASCII model of the regex class `\w`: letters, digits, underscore.
(Python matches further unicode word characters; every name the program
uses is ASCII.) -/
def isWordChar (c : Char) : Bool := c.isAlphanum || c == '_'

/-- A parsed inline marker: `match.group(1)` (tool name), `match.group(2)`
(raw argument text), `match.start()` and `match.end()` (the span of the
whole `[[name:args]]` literal in the scanned buffer). -/
structure Marker where
  name : List Char
  args : List Char
  start : Nat
  stop : Nat
deriving DecidableEq, Repr

/-- Try to match the marker pattern anchored at the head of the buffer,
returning the name, the argument text, and the length of the whole
matched literal. -/
def matchAtHead (s : List Char) : Option (List Char × List Char × Nat) :=
  match s with
  | c1 :: c2 :: rest =>
    if c1 = '[' ∧ c2 = '[' then
      let name := rest.takeWhile isWordChar
      let rest1 := rest.dropWhile isWordChar
      if name = [] then none
      else
        match rest1 with
        | c3 :: rest2 =>
          if c3 = ':' then
            let args := rest2.takeWhile (fun c => c != ']')
            let rest3 := rest2.dropWhile (fun c => c != ']')
            match rest3 with
            | c4 :: c5 :: _ =>
              if c4 = ']' ∧ c5 = ']' then
                some (name, args, name.length + args.length + 5)
              else none
            | _ => none
          else none
        | _ => none
    else none
  | _ => none

/-- Scan start positions left to right, reporting the first position where
the pattern matches; `i` is the absolute index of the current head. -/
def scanAux : List Char → Nat → Option Marker
  | [], _ => none
  | s@(_ :: tail), i =>
    match matchAtHead s with
    | some (n, a, len) => some ⟨n, a, i, i + len⟩
    | none => scanAux tail (i + 1)

/-- The scanner: `re.search` of the marker pattern over the buffer. -/
def scanMarker (s : List Char) : Option Marker := scanAux s 0

/-!
### Declarative reading of the pattern

`markerText name args` is the literal the regex describes; `MatchAt s i`
says it occurs in `s` at position `i`.  These are the spec-side
definitions the scanner is proved against.
-/

/-- The literal text of a marker: `[[name:args]]`. -/
def markerText (name args : List Char) : List Char :=
  '[' :: '[' :: (name ++ ':' :: (args ++ [']', ']']))

/-- Well-formedness of the two capture groups, read off the regex: the
name is one or more word characters, the arguments hold no `]`. -/
def MarkerShape (name args : List Char) : Prop :=
  name ≠ [] ∧ (∀ c ∈ name, isWordChar c = true) ∧ (∀ c ∈ args, c ≠ ']')

/-- The pattern matches in `s` at start position `i` with groups
`name`, `args`. -/
def MatchAt (s : List Char) (i : Nat) (name args : List Char) : Prop :=
  MarkerShape name args ∧ markerText name args <+: s.drop i

/-- No occurrence of the pattern anywhere in `s`. -/
def NoMatch (s : List Char) : Prop := ∀ i name args, ¬ MatchAt s i name args

instance (name args : List Char) : Decidable (MarkerShape name args) := by
  unfold MarkerShape
  infer_instance

instance (s : List Char) (i : Nat) (name args : List Char) :
    Decidable (MatchAt s i name args) := by
  unfold MatchAt
  infer_instance

/-!
## Sandboxed file tool (`file_operation`, main.py lines 11-53)

The filesystem is modelled as a finite association list from absolute
paths (lists of components) to entries (regular file with content, or
directory).  Symbolic links are not modelled, so `Path.resolve()` is
purely lexical normalisation of `..` and `.` components and never
raises (the `except` at lines 23-24 is therefore unreachable in the
model); OS permissions are not modelled either, so the
`PermissionError` handler at lines 50-51 is likewise unreachable.
`Path.home()` is the parameter `home`.
-/

/-- An absolute filesystem path as its list of components. -/
abbrev PathC := List String

/-- A filesystem entry: a regular file with its text content, or a
directory. -/
inductive Entry where
  | file (content : String)
  | dir
deriving DecidableEq, Repr

/-- The filesystem: a finite association list from absolute paths to
entries. -/
abbrev FS := List (PathC × Entry)

/-- Look up the entry at a path (first binding wins). -/
def FS.find (fs : FS) (p : PathC) : Option Entry :=
  match fs with
  | [] => none
  | (q, e) :: rest => if q = p then some e else FS.find rest p

/-- Bind a path to an entry, replacing any previous binding. -/
def FS.set (fs : FS) (p : PathC) (e : Entry) : FS :=
  (p, e) :: fs.filter (fun q => decide (q.1 ≠ p))

/-- Decidable equality for `Except` results (needed to evaluate the
concrete runs below). -/
instance {α β : Type} [DecidableEq α] [DecidableEq β] :
    DecidableEq (Except α β) := fun a b =>
  match a, b with
  | .ok x, .ok y => decidable_of_iff (x = y) (by simp)
  | .error x, .error y => decidable_of_iff (x = y) (by simp)
  | .ok _, .error _ => isFalse (by simp)
  | .error _, .ok _ => isFalse (by simp)

/-- Whether an optional entry is a regular file. -/
def isFileEntry : Option Entry → Bool
  | some (Entry.file _) => true
  | _ => false

/-- Split a character list on `/` (kernel-reducible equivalent of
`str.split('/')`; `cur` holds the current piece reversed). -/
def splitComponents : List Char → List Char → List String
  | [], cur => [String.mk cur.reverse]
  | c :: rest, cur =>
    if c = '/' then String.mk cur.reverse :: splitComponents rest []
    else splitComponents rest (c :: cur)

/-- Split a path string on `/`. -/
def splitPath (p : String) : List String := splitComponents p.data []

/-- Join strings with a separator (kernel-reducible equivalent of
`sep.join(...)` / `String.intercalate`). -/
def joinWith (sep : String) : List String → String
  | [] => ""
  | [x] => x
  | x :: rest => x ++ sep ++ joinWith sep rest

/-- Lexical core of `Path.resolve()` on a symlink-free filesystem: walk
the components, dropping empty and `.` components, and letting `..` pop
the last component (staying at the filesystem root when already there). -/
def normSteps (stack : PathC) (comps : List String) : PathC :=
  match comps with
  | [] => stack
  | c :: rest =>
    if c = "" ∨ c = "." then normSteps stack rest
    else if c = ".." then normSteps stack.dropLast rest
    else normSteps (stack ++ [c]) rest

/-- Model of `(SAFE_BASE_DIR / path).resolve()` (main.py line 20).  A
path beginning with `/` replaces the base entirely (Python `Path` join
semantics); otherwise the path's components are appended to the base;
then `..` and `.` are resolved lexically. -/
def resolveTarget (base : PathC) (path : String) : PathC :=
  match path.data with
  | '/' :: _ => normSteps [] (splitPath path)
  | _ => normSteps base (splitPath path)

/-- Render a component path the way `str(Path(...))` renders an absolute
POSIX path. -/
def renderPath (p : PathC) : String := "/" ++ joinWith "/" p

/-- The code's confinement check (main.py line 21):
`str(target_path).startswith(str(SAFE_BASE_DIR))`, a check on the two
rendered strings. -/
def insideCheck (base target : PathC) : Bool :=
  (renderPath base).data.isPrefixOf (renderPath target).data

/-- Spec-side reading of path confinement: the canonical target lies at
or below the sandbox root, componentwise. -/
def isDescendant (base target : PathC) : Bool := base.isPrefixOf target

/-- Model of line 17, `SAFE_BASE_DIR.mkdir(exist_ok=True)`: create the
sandbox root if absent.  If the root path exists as a regular file,
`mkdir` raises `FileExistsError`; line 17 stands outside the `try`, so
that exception escapes `file_operation` (modelled as `.error`). -/
def ensureRoot (fs : FS) (base : PathC) : Except String FS :=
  match FS.find fs base with
  | some Entry.dir => .ok fs
  | some (Entry.file _) => .error "FileExistsError: sandbox root exists as a file"
  | none => .ok (FS.set fs base Entry.dir)

/-- The strict ancestors of a path (every proper component-prefix),
the directories `target_path.parent.mkdir(parents=True, exist_ok=True)`
must provide. -/
def strictAncestors (p : PathC) : List PathC :=
  (List.range p.length).map (fun k => p.take k)

/-- Create every missing directory among the given paths (model of
`mkdir(parents=True, exist_ok=True)` in the conflict-free case). -/
def addDirs (fs : FS) (ps : List PathC) : FS :=
  ps.foldl
    (fun acc p =>
      match FS.find acc p with
      | none => FS.set acc p Entry.dir
      | some _ => acc)
    fs

/-- The direct-child names of a directory (model of
`[p.name for p in target_path.iterdir()]`, main.py line 44). -/
def childNames (fs : FS) (p : PathC) : List String :=
  fs.filterMap
    (fun q =>
      if q.1.length = p.length + 1 ∧ p.isPrefixOf q.1 then q.1.getLast? else none)

/-- Model of `file_operation` (main.py lines 11-53): resolve the
requested path against the sandbox root, reject it when the rendered
target does not start with the rendered root (line 21), otherwise
perform the read / write / list.  Returns the result string and the
updated filesystem.  `.error` models an exception escaping the function,
possible only from line 17 (see `ensureRoot`); every exception inside
the `try` block is caught and returned as text (lines 50-53), and the
error strings below correspond to the source's `f`-strings (messages of
caught host exceptions, such as writing onto an existing directory, are
abbreviated since the source only interpolates `str(e)`). -/
def file_operation (home : PathC) (fs : FS) (operation path : String)
    (content : Option String) : Except String (String × FS) :=
  let base := home ++ ["devstral_sandbox"]
  match ensureRoot fs base with
  | .error e => .error e
  | .ok fs0 =>
    let target := resolveTarget base path
    if insideCheck base target = false then
      .ok ("Error: Path is outside the allowed directory.", fs0)
    else if operation = "read" then
      match FS.find fs0 target with
      | some (Entry.file c) => .ok (c, fs0)
      | _ => .ok ("Error: " ++ path ++ " is not a file or does not exist.", fs0)
    else if operation = "write" then
      match content with
      | none => .ok ("Error: Content is required for write operation.", fs0)
      | some c =>
        if (strictAncestors target).any (fun q => isFileEntry (FS.find fs0 q)) then
          .ok ("Error during file operation: a parent exists as a regular file", fs0)
        else
          let fs1 := addDirs fs0 (strictAncestors target)
          match FS.find fs1 target with
          | some Entry.dir =>
            .ok ("Error during file operation: is a directory", fs1)
          | _ => .ok ("Successfully wrote to " ++ path, FS.set fs1 target (Entry.file c))
    else if operation = "list" then
      match FS.find fs0 target with
      | some Entry.dir =>
        let names := childNames fs0 target
        .ok (if names = [] then "Directory is empty." else joinWith "\n" names, fs0)
      | _ => .ok ("Error: " ++ path ++ " is not a directory or does not exist.", fs0)
    else
      .ok ("Error: Unsupported operation '" ++ operation ++
        "'. Use 'read', 'write', or 'list'.", fs0)

/-!
## Model of Python expression evaluation for `calculate_math`

The inline-marker executor evaluates the raw argument with the built-in
`eval(args)` (main.py line 197) — full Python `eval` with the module's
globals and the real builtins.  The native tool-call path instead runs
`eval(function_args["expression"], SAFE_MATH_GLOBALS, {})` (line 323).
We embed the fragment of Python expression evaluation that the
calculator's advertised grammar and the claims exercise: integer and
string literals, `+ - * / ** ( )`, unary minus, names, and function
calls — enough to evaluate arithmetic and to witness that
`__import__('os')` executes an import under the unrestricted builtins.
Python constructs outside this fragment are modelled as evaluation
errors (the same observable class as any other raised exception, which
the executor's `except` turns into an error string).  Python `float`
results are idealised as exact rationals, and error strings model
`str(e)` of the raised exception, abbreviated where CPython adds
position information.
-/

/-- Tokens of the expression fragment. -/
inductive Tok where
  | int (n : ℕ)
  | str (s : String)
  | name (s : String)
  | op (s : String)
deriving DecidableEq, Repr

/-- Numeric value of a digit run (kernel-reducible model of Python's
integer-literal reading). -/
def digitsToNat (ds : List Char) : Nat :=
  ds.foldl (fun acc c => acc * 10 + (c.toNat - 48)) 0

/-- Decimal digits of a natural number (kernel-reducible model of
`str` on a non-negative int). -/
def natToStrAux : Nat → Nat → List Char → List Char
  | 0, _, acc => acc
  | fuel + 1, n, acc =>
    if n = 0 then acc
    else natToStrAux fuel (n / 10) (Char.ofNat (48 + n % 10) :: acc)

/-- Decimal form of a natural number. -/
def natToStr (n : Nat) : String :=
  if n = 0 then "0" else String.mk (natToStrAux (n + 1) n [])

/-- Decimal form of an integer (model of Python `str` on an int). -/
def intToStr (n : ℤ) : String :=
  if n < 0 then "-" ++ natToStr n.natAbs else natToStr n.natAbs

/-- Tokenizer for the expression fragment (fuel-indexed; the wrapper
supplies fuel larger than the input length, which always suffices since
every step consumes at least one character). -/
def tokenizeAux : Nat → List Char → Except String (List Tok)
  | 0, _ => .error "tokenizer fuel exhausted"
  | _, [] => .ok []
  | fuel + 1, c :: rest =>
    if c = ' ' then tokenizeAux fuel rest
    else if c.isDigit then
      let ds := (c :: rest).takeWhile Char.isDigit
      let rest1 := (c :: rest).dropWhile Char.isDigit
      (tokenizeAux fuel rest1).map (fun ts => Tok.int (digitsToNat ds) :: ts)
    else if c.isAlpha ∨ c = '_' then
      let w := (c :: rest).takeWhile isWordChar
      let rest1 := (c :: rest).dropWhile isWordChar
      (tokenizeAux fuel rest1).map (fun ts => Tok.name (String.mk w) :: ts)
    else if c = '\'' then
      let body := rest.takeWhile (fun d => d != '\'')
      match rest.dropWhile (fun d => d != '\'') with
      | _ :: rest1 => (tokenizeAux fuel rest1).map (fun ts => Tok.str (String.mk body) :: ts)
      | [] => .error "unterminated string literal"
    else if c = '*' then
      match rest with
      | '*' :: rest1 => (tokenizeAux fuel rest1).map (fun ts => Tok.op "**" :: ts)
      | _ => (tokenizeAux fuel rest).map (fun ts => Tok.op "*" :: ts)
    else if c = '+' ∨ c = '-' ∨ c = '/' ∨ c = '(' ∨ c = ')' ∨ c = ',' then
      (tokenizeAux fuel rest).map (fun ts => Tok.op (String.mk [c]) :: ts)
    else .error "invalid character"

/-- Abstract syntax of the expression fragment. -/
inductive PyExpr where
  | intLit (n : ℕ)
  | strLit (s : String)
  | name (s : String)
  | neg (e : PyExpr)
  | add (a b : PyExpr)
  | sub (a b : PyExpr)
  | mul (a b : PyExpr)
  | div (a b : PyExpr)
  | pow (a b : PyExpr)
  | call (f : PyExpr) (args : List PyExpr)
deriving Repr

mutual

/-- Additive level: `mulE (('+'|'-') mulE)*`. -/
def parseAddE : Nat → List Tok → Except String (PyExpr × List Tok)
  | 0, _ => .error "expression too deep"
  | fuel + 1, ts => do
    let (e, ts1) ← parseMulE fuel ts
    parseAddRest fuel e ts1

/-- Left-associated continuation of the additive level. -/
def parseAddRest : Nat → PyExpr → List Tok → Except String (PyExpr × List Tok)
  | 0, _, _ => .error "expression too deep"
  | fuel + 1, e, ts =>
    match ts with
    | Tok.op "+" :: ts1 => do
      let (e2, ts2) ← parseMulE fuel ts1
      parseAddRest fuel (PyExpr.add e e2) ts2
    | Tok.op "-" :: ts1 => do
      let (e2, ts2) ← parseMulE fuel ts1
      parseAddRest fuel (PyExpr.sub e e2) ts2
    | _ => .ok (e, ts)

/-- Multiplicative level: `unaryE (('*'|'/') unaryE)*`. -/
def parseMulE : Nat → List Tok → Except String (PyExpr × List Tok)
  | 0, _ => .error "expression too deep"
  | fuel + 1, ts => do
    let (e, ts1) ← parseUnaryE fuel ts
    parseMulRest fuel e ts1

/-- Left-associated continuation of the multiplicative level. -/
def parseMulRest : Nat → PyExpr → List Tok → Except String (PyExpr × List Tok)
  | 0, _, _ => .error "expression too deep"
  | fuel + 1, e, ts =>
    match ts with
    | Tok.op "*" :: ts1 => do
      let (e2, ts2) ← parseUnaryE fuel ts1
      parseMulRest fuel (PyExpr.mul e e2) ts2
    | Tok.op "/" :: ts1 => do
      let (e2, ts2) ← parseUnaryE fuel ts1
      parseMulRest fuel (PyExpr.div e e2) ts2
    | _ => .ok (e, ts)

/-- Unary level: `'-' unaryE | powE`. -/
def parseUnaryE : Nat → List Tok → Except String (PyExpr × List Tok)
  | 0, _ => .error "expression too deep"
  | fuel + 1, Tok.op "-" :: ts1 =>
    (parseUnaryE fuel ts1).map (fun p => (PyExpr.neg p.1, p.2))
  | fuel + 1, ts => parsePowE fuel ts

/-- Power level: `postE ('**' unaryE)?` (right-associated). -/
def parsePowE : Nat → List Tok → Except String (PyExpr × List Tok)
  | 0, _ => .error "expression too deep"
  | fuel + 1, ts => do
    let (e, ts1) ← parsePostE fuel ts
    match ts1 with
    | Tok.op "**" :: ts2 => do
      let (e2, ts3) ← parseUnaryE fuel ts2
      .ok (PyExpr.pow e e2, ts3)
    | _ => .ok (e, ts1)

/-- Postfix level: an atom followed by call suffixes. -/
def parsePostE : Nat → List Tok → Except String (PyExpr × List Tok)
  | 0, _ => .error "expression too deep"
  | fuel + 1, ts => do
    let (e, ts1) ← parseAtomE fuel ts
    parseCallRest fuel e ts1

/-- Call suffixes: `'(' argList? ')'` repeated. -/
def parseCallRest : Nat → PyExpr → List Tok → Except String (PyExpr × List Tok)
  | 0, _, _ => .error "expression too deep"
  | fuel + 1, e, ts =>
    match ts with
    | Tok.op "(" :: Tok.op ")" :: ts2 => parseCallRest fuel (PyExpr.call e []) ts2
    | Tok.op "(" :: ts1 => do
      let (arguments, ts2) ← parseArgsE fuel ts1
      match ts2 with
      | Tok.op ")" :: ts3 => parseCallRest fuel (PyExpr.call e arguments) ts3
      | _ => .error "invalid syntax"
    | _ => .ok (e, ts)

/-- Comma-separated argument list. -/
def parseArgsE : Nat → List Tok → Except String (List PyExpr × List Tok)
  | 0, _ => .error "expression too deep"
  | fuel + 1, ts => do
    let (e, ts1) ← parseAddE fuel ts
    match ts1 with
    | Tok.op "," :: ts2 => do
      let (es, ts3) ← parseArgsE fuel ts2
      .ok (e :: es, ts3)
    | _ => .ok ([e], ts1)

/-- Atoms: literals, names, parenthesised expressions. -/
def parseAtomE : Nat → List Tok → Except String (PyExpr × List Tok)
  | 0, _ => .error "expression too deep"
  | _ + 1, Tok.int n :: ts => .ok (PyExpr.intLit n, ts)
  | _ + 1, Tok.str s :: ts => .ok (PyExpr.strLit s, ts)
  | _ + 1, Tok.name s :: ts => .ok (PyExpr.name s, ts)
  | fuel + 1, Tok.op "(" :: ts => do
    let (e, ts1) ← parseAddE fuel ts
    match ts1 with
    | Tok.op ")" :: ts2 => .ok (e, ts2)
    | _ => .error "invalid syntax"
  | _ + 1, _ => .error "invalid syntax"

end

/-- Parse a full expression: the whole token list must be consumed. -/
def parseExprTop (ts : List Tok) : Except String PyExpr := do
  let (e, rest) ← parseAddE ((ts.length + 4) * 8) ts
  match rest with
  | [] => .ok e
  | _ => .error "invalid syntax"

/-- Values of the evaluation fragment. -/
inductive PyVal where
  | int (n : ℤ)
  | float (q : ℚ)
  | str (s : String)
  | module (m : String)
  | builtinImport
  | func (name : String)
deriving DecidableEq, Repr

/-- The names bound at module level in src/main.py: its imports (lines
1-9), top-level defs and assignments.  These are the globals visible to
the bare `eval(args)` at line 197.  `SAFE_MATH_GLOBALS` is NOT among
them — no line of the file binds it — so the reference to it at line
323 raises `NameError` at runtime. -/
def moduleTopLevelNames : List String :=
  ["os", "Mistral", "List", "Dict", "json", "datetime", "requests", "Path",
   "re", "math", "file_operation", "get_system_prompt", "get_current_time",
   "web_search", "tools", "execute_function", "get_devstral_response",
   "main", "email"]

/-- Name lookup for the unrestricted `eval(args)` call (line 197): the
real builtins (of which the model carries `__import__`) together with
the module's globals, whose values the model represents as opaque
objects.  An unknown name raises `NameError`, whose `str(e)` is
Python's message. -/
def lookupName (n : String) : Except String PyVal :=
  if n = "__import__" then .ok PyVal.builtinImport
  else if n ∈ moduleTopLevelNames then .ok (PyVal.func n)
  else .error ("name '" ++ n ++ "' is not defined")

/-- Python `+` on fragment values. -/
def pyAdd : PyVal → PyVal → Except String PyVal
  | .int a, .int b => .ok (.int (a + b))
  | .int a, .float b => .ok (.float (a + b))
  | .float a, .int b => .ok (.float (a + b))
  | .float a, .float b => .ok (.float (a + b))
  | .str a, .str b => .ok (.str (a ++ b))
  | _, _ => .error "unsupported operand type(s) for +"

/-- Python `-` on fragment values. -/
def pySub : PyVal → PyVal → Except String PyVal
  | .int a, .int b => .ok (.int (a - b))
  | .int a, .float b => .ok (.float (a - b))
  | .float a, .int b => .ok (.float (a - b))
  | .float a, .float b => .ok (.float (a - b))
  | _, _ => .error "unsupported operand type(s) for -"

/-- Python `*` on fragment values (string repetition is outside the
fragment). -/
def pyMul : PyVal → PyVal → Except String PyVal
  | .int a, .int b => .ok (.int (a * b))
  | .int a, .float b => .ok (.float (a * b))
  | .float a, .int b => .ok (.float (a * b))
  | .float a, .float b => .ok (.float (a * b))
  | _, _ => .error "unsupported operand type(s) for *"

/-- Python `/` on fragment values: true division, always float-valued,
raising `ZeroDivisionError` on a zero divisor. -/
def pyDiv : PyVal → PyVal → Except String PyVal
  | .int a, .int b => if b = 0 then .error "division by zero" else .ok (.float ((a : ℚ) / (b : ℚ)))
  | .int a, .float b => if b = 0 then .error "float division by zero" else .ok (.float (a / b))
  | .float a, .int b => if b = 0 then .error "float division by zero" else .ok (.float (a / (b : ℚ)))
  | .float a, .float b => if b = 0 then .error "float division by zero" else .ok (.float (a / b))
  | _, _ => .error "unsupported operand type(s) for /"

/-- Python `**` on fragment values (int base and exponent; a negative
exponent promotes to float). -/
def pyPow : PyVal → PyVal → Except String PyVal
  | .int a, .int b =>
    if 0 ≤ b then .ok (.int (a ^ b.toNat))
    else if a = 0 then .error "0.0 cannot be raised to a negative power"
    else .ok (.float ((a : ℚ) ^ b))
  | .float a, .int b =>
    if a = 0 ∧ b < 0 then .error "0.0 cannot be raised to a negative power"
    else .ok (.float (a ^ b))
  | _, _ => .error "exponent outside the modelled fragment"

/-- Python unary `-` on fragment values. -/
def pyNeg : PyVal → Except String PyVal
  | .int a => .ok (.int (-a))
  | .float a => .ok (.float (-a))
  | _ => .error "bad operand type for unary -"

mutual

/-- Evaluate a fragment expression in the unrestricted environment of
`eval(args)` (line 197), returning the value together with the list of
modules imported while evaluating — the observable side effect
`__import__` performs. -/
def pyEvalE : Nat → PyExpr → Except String (PyVal × List String)
  | 0, _ => .error "eval fuel exhausted"
  | fuel + 1, e =>
    match e with
    | .intLit n => .ok (.int n, [])
    | .strLit s => .ok (.str s, [])
    | .name s => (lookupName s).map (fun v => (v, []))
    | .neg a => do
      let (v, i) ← pyEvalE fuel a
      (pyNeg v).map (fun z => (z, i))
    | .add a b => do
      let (v1, i1) ← pyEvalE fuel a
      let (v2, i2) ← pyEvalE fuel b
      (pyAdd v1 v2).map (fun z => (z, i1 ++ i2))
    | .sub a b => do
      let (v1, i1) ← pyEvalE fuel a
      let (v2, i2) ← pyEvalE fuel b
      (pySub v1 v2).map (fun z => (z, i1 ++ i2))
    | .mul a b => do
      let (v1, i1) ← pyEvalE fuel a
      let (v2, i2) ← pyEvalE fuel b
      (pyMul v1 v2).map (fun z => (z, i1 ++ i2))
    | .div a b => do
      let (v1, i1) ← pyEvalE fuel a
      let (v2, i2) ← pyEvalE fuel b
      (pyDiv v1 v2).map (fun z => (z, i1 ++ i2))
    | .pow a b => do
      let (v1, i1) ← pyEvalE fuel a
      let (v2, i2) ← pyEvalE fuel b
      (pyPow v1 v2).map (fun z => (z, i1 ++ i2))
    | .call f fargs => do
      let (fv, i0) ← pyEvalE fuel f
      let (vs, i1) ← pyEvalArgs fuel fargs
      match fv, vs with
      | .builtinImport, [PyVal.str m] => .ok (.module m, i0 ++ i1 ++ [m])
      | .builtinImport, _ => .error "__import__ call outside the modelled fragment"
      | .func n, _ => .error ("call of '" ++ n ++ "' outside the modelled fragment")
      | _, _ => .error "object is not callable"

/-- Evaluate a call's argument expressions left to right. -/
def pyEvalArgs : Nat → List PyExpr → Except String (List PyVal × List String)
  | 0, _ => .error "eval fuel exhausted"
  | _ + 1, [] => .ok ([], [])
  | fuel + 1, e :: es => do
    let (v, i1) ← pyEvalE fuel e
    let (vs, i2) ← pyEvalArgs fuel es
    .ok (v :: vs, i1 ++ i2)

end

/-- Model of Python `str()` on fragment values (main.py line 197 wraps
`eval` in `str`).  Ints print in decimal; floats are idealised; a
module's repr is abbreviated (CPython prints a path after the name,
which the model elides). -/
def pyStr : PyVal → String
  | .int n => intToStr n
  | .float q => toString q
  | .str s => s
  | .module m => "<module '" ++ m ++ "'>"
  | .builtinImport => "<built-in function __import__>"
  | .func n => "<module-level object " ++ n ++ ">"

/-- Model of `eval(args)` at line 197: tokenize, parse and evaluate in
the unrestricted environment.  `.error e` models a raised exception
with `str(e) = e`. -/
def pyEvalStr (args : String) : Except String (PyVal × List String) := do
  let ts ← tokenizeAux (args.length + 1) args.data
  let e ← parseExprTop ts
  pyEvalE (args.length + 16) e

/-- Model of the `calculate_math` branch of the native tool-call path
(main.py lines 321-325): `eval(function_args["expression"],
SAFE_MATH_GLOBALS, {})` inside a local `try/except`.  `SAFE_MATH_GLOBALS`
is an ordinary global name and `moduleTopLevelNames` records that the
module never binds it, so evaluating that argument raises `NameError`
before `eval` is entered, and the local handler (lines 324-325) turns it
into the error string below — for every expression. -/
def nativeCalcMath (expr : String) : String :=
  if "SAFE_MATH_GLOBALS" ∈ moduleTopLevelNames then
    "unreachable: main.py does not bind SAFE_MATH_GLOBALS"
  else
    "Error evaluating expression '" ++ expr ++ "': name 'SAFE_MATH_GLOBALS' is not defined"

/-!
## Tool executor (`execute_function`, main.py lines 190-211)

The executor's collaborators that reach outside the process are oracles
in a `World`: the wall clock (`datetime.now`, line 63), the Wikipedia
search (total, because `web_search`'s own handlers catch every
exception, lines 66-104), the script runner (`exec`, lines 198-201,
whose observable result is the display string of
`exec_globals.get('result', ...)` or the exception it raises), and
`json.loads` (line 203; an object of string fields covers every use the
program makes of it).  The filesystem and the log of modules imported by
`calculate_math`'s `eval` live in the world as well.
-/

/-- The world of external collaborators and observable effects. -/
structure World where
  now : String
  web : String → String
  script : String → Except String (Option String)
  parseJson : String → Except String (List (String × String))
  home : PathC
  fs : FS
  imports : List String

/-- The function names `execute_function` dispatches on (lines
192-207). -/
def knownFunctionNames : List String :=
  ["get_current_time", "web_search", "calculate_math", "run_python_script",
   "file_operation"]

/-- The `try` body of `execute_function` (main.py lines 191-209),
branch by branch; `.error e` is an exception reaching the `except` at
line 210 with `str(e) = e`. -/
def execBody (w : World) (function_name args : String) :
    Except String String × World :=
  if function_name = "get_current_time" then
    (.ok ("Current local time: " ++ w.now), w)
  else if function_name = "web_search" then
    (.ok (w.web args), w)
  else if function_name = "calculate_math" then
    match pyEvalStr args with
    | .ok (v, imps) => (.ok (pyStr v), {w with imports := w.imports ++ imps})
    | .error e => (.error e, w)
  else if function_name = "run_python_script" then
    match w.script args with
    | .ok (some r) => (.ok r, w)
    | .ok none => (.ok "Script executed successfully.", w)
    | .error e => (.error e, w)
  else if function_name = "file_operation" then
    match w.parseJson args with
    | .error e => (.error e, w)
    | .ok obj =>
      match obj.lookup "operation" with
      | none => (.error "'operation'", w)
      | some operation =>
        match obj.lookup "path" with
        | none => (.error "'path'", w)
        | some path =>
          match file_operation w.home w.fs operation path (obj.lookup "content") with
          | .ok (r, fs1) => (.ok r, {w with fs := fs1})
          | .error e => (.error e, w)
  else
    (.ok ("Error: Unknown function '" ++ function_name ++ "'."), w)

/-- Model of `execute_function` (main.py lines 190-211): run the `try`
body; any exception is caught at line 210 and becomes
`"Error in {function_name}: {str(e)}"`.  The function always returns a
string — it never raises past this boundary. -/
def execute_function (w : World) (function_name args : String) :
    String × World :=
  match execBody w function_name args with
  | (.ok s, w1) => (s, w1)
  | (.error e, w1) => ("Error in " ++ function_name ++ ": " ++ e, w1)

/-!
## Streaming orchestrator (`get_devstral_response`, main.py lines 214-377)

A stream is the list of its delta events; each event carries an optional
text fragment, a (possibly empty) list of structured tool calls, and an
optional completion reason (the source reads `delta.content`,
`delta.tool_calls` and `finish_reason` on each event; an event without
`choices` is skipped entirely and behaves exactly like an all-empty
event, so events are modelled with their choice inlined).  The initial
stream and the queue of streams returned by the subsequent
`client.chat.stream` calls are oracle inputs: each call the orchestrator
makes pops the next element of the queue (an exhausted queue yields
empty streams).  Python's `if delta.content:` truthiness guard skips
both `None` and the empty string, which the model mirrors.  Text inside
the orchestrator is `List Char`.
-/

/-- A structured tool call as delivered by the API (`tool_call.id`,
`tool_call.function.name`, `tool_call.function.arguments`). -/
structure ToolCall where
  id : String
  fname : String
  argumentsJson : String
deriving DecidableEq, Repr

/-- One delta event of a completion stream. -/
structure Event where
  content : Option (List Char)
  toolCalls : List ToolCall
  finishReason : Option String
deriving DecidableEq, Repr

/-- A conversation message: role, text content (absent when only a
tool-call list is attached), structured tool calls, and the originating
call id for tool-role messages. -/
structure Message where
  role : String
  content : Option (List Char)
  toolCalls : List ToolCall
  toolCallId : Option String
deriving DecidableEq, Repr

/-- The concatenated text of a stream. -/
def concatContent (events : List Event) : List Char :=
  (events.map (fun e => e.content.getD [])).flatten

/-- The follow-up stream loop entered after an inline marker (main.py
lines 282-293): accumulate the text fragments into `assistant_content`
(which line 271 reset to empty), extend the collected tool calls, and
break on completion reason `"tool_calls"`.  No marker scanning happens
here; line 294 then clears the buffer, so the buffer is not modelled. -/
def processFollowUp : List Event → List Char → List ToolCall →
    List Char × List ToolCall
  | [], acc, tcs => (acc, tcs)
  | e :: rest, acc, tcs =>
    let acc1 := match e.content with
      | some c => if c = [] then acc else acc ++ c
      | none => acc
    let tcs1 := tcs ++ e.toolCalls
    if e.finishReason = some "tool_calls" then (acc1, tcs1)
    else processFollowUp rest acc1 tcs1

/-- The second assistant-side message appended on a marker (main.py
lines 265-268): `"[{function_name} result: {result}]"`. -/
def toolResultText (name : List Char) (result : String) : List Char :=
  "[".data ++ name ++ " result: ".data ++ result.data ++ "]".data

/-- The main event loop over the initial stream (main.py lines
236-299).  On each nonempty text fragment the buffer grows and is
scanned; a complete marker triggers tool execution, the two message
appends (lines 260-268), a fresh follow-up stream (consumed by
`processFollowUp` without marker scanning), and clearing of the
accumulator and buffer — note line 281 clears the buffer, discarding any
text after the marker that had already arrived in the same fragment.
Tool calls are collected per event (line 296-297) and completion reason
`"tool_calls"` breaks the loop (line 298-299).  Returns the
accumulator, buffer, messages, collected tool calls, world, and the
remaining stream queue. -/
def outerLoop (w : World) (events : List Event) (streams : List (List Event))
    (msgs : List Message) (acc buffer : List Char) (tcs : List ToolCall) :
    List Char × List Char × List Message × List ToolCall × World ×
      List (List Event) :=
  match events with
  | [] => (acc, buffer, msgs, tcs, w, streams)
  | e :: rest =>
    match e.content with
    | some c =>
      if c = [] then
        let tcs1 := tcs ++ e.toolCalls
        if e.finishReason = some "tool_calls" then (acc, buffer, msgs, tcs1, w, streams)
        else outerLoop w rest streams msgs acc buffer tcs1
      else
        let buffer1 := buffer ++ c
        match scanMarker buffer1 with
        | some m =>
          let (result, w1) := execute_function w (String.mk m.name) (String.mk m.args)
          let acc1 := acc ++ buffer1.take m.start ++ result.data
          let msgs1 := msgs ++
            [⟨"assistant", some acc1, [], none⟩,
             ⟨"assistant", some (toolResultText m.name result), [], none⟩]
          let fstream := streams.headD []
          let streams1 := streams.tail
          let (fAcc, tcs1) := processFollowUp fstream [] tcs
          let tcs2 := tcs1 ++ e.toolCalls
          if e.finishReason = some "tool_calls" then (fAcc, [], msgs1, tcs2, w1, streams1)
          else outerLoop w1 rest streams1 msgs1 fAcc [] tcs2
        | none =>
          let tcs1 := tcs ++ e.toolCalls
          if e.finishReason = some "tool_calls" then (acc, buffer1, msgs, tcs1, w, streams)
          else outerLoop w rest streams msgs acc buffer1 tcs1
    | none =>
      let tcs1 := tcs ++ e.toolCalls
      if e.finishReason = some "tool_calls" then (acc, buffer, msgs, tcs1, w, streams)
      else outerLoop w rest streams msgs acc buffer tcs1

/-- Per-tool dispatch of the native structured-tool-call round (main.py
lines 315-343).  `.error` models an exception escaping to the outer
`except` at line 375: the argument decode at line 315 and the
`KeyError`s at lines 320 and 323 stand outside any local `try` (for
`calculate_math`, `function_args["expression"]` is evaluated before
`SAFE_MATH_GLOBALS`, and on a missing key the handler at line 325
re-raises the same `KeyError`).  The `run_python_script` and
`file_operation` branches have local handlers, so their failures stay
local. -/
def nativeDispatch (w : World) (fname argsJson : String) :
    Except String (String × World) :=
  match w.parseJson argsJson with
  | .error e => .error e
  | .ok fargs =>
    if fname = "get_current_time" then .ok ("Current local time: " ++ w.now, w)
    else if fname = "web_search" then
      match fargs.lookup "query" with
      | none => .error "'query'"
      | some q => .ok (w.web q, w)
    else if fname = "calculate_math" then
      match fargs.lookup "expression" with
      | none => .error "'expression'"
      | some expr => .ok (nativeCalcMath expr, w)
    else if fname = "run_python_script" then
      match fargs.lookup "code" with
      | none => .ok ("Error executing script: 'code'", w)
      | some code =>
        match w.script code with
        | .ok (some r) => .ok (r, w)
        | .ok none => .ok ("Script executed successfully.", w)
        | .error e => .ok ("Error executing script: " ++ e, w)
    else if fname = "file_operation" then
      match fargs.lookup "operation" with
      | none => .ok ("Error in file operation: 'operation'", w)
      | some operation =>
        match fargs.lookup "path" with
        | none => .ok ("Error in file operation: 'path'", w)
        | some path =>
          match file_operation w.home w.fs operation path (fargs.lookup "content") with
          | .ok (r, fs1) => .ok (r, {w with fs := fs1})
          | .error e => .ok ("Error in file operation: " ++ e, w)
    else .ok ("Error: Unknown function '" ++ fname ++ "'.", w)

/-- The loop over collected native tool calls (main.py lines 313-351):
execute each in order, appending one tool-role message per result tagged
with the call's id.  On an escaping exception the messages appended so
far remain (the Python list was mutated in place). -/
def nativeToolLoop (w : World) (msgs : List Message) :
    List ToolCall → Except String Unit × List Message × World
  | [] => (.ok (), msgs, w)
  | tc :: rest =>
    match nativeDispatch w tc.fname tc.argumentsJson with
    | .error e => (.error e, msgs, w)
    | .ok (r, w1) =>
      nativeToolLoop w1 (msgs ++ [⟨"tool", some r.data, [], some tc.id⟩]) rest

/-- Model of `get_devstral_response` (main.py lines 214-377): run the
event loop over the initial stream, append the leftover buffer to the
accumulated content (line 302), and, when structured tool calls were
collected, run the native round (lines 306-371): append one assistant
message carrying the call list (content `None` when empty), execute each
call appending tool-role messages, then stream one follow-up completion
whose concatenated text is the turn's final text.  The Python function
mutates `messages` in place and returns the final string; the model
returns the final text, the message list and the world.  The outer
`except` at lines 375-377 turns an escaping exception into the returned
string `"Error: {str(e)}"`, with the messages appended so far kept. -/
def get_devstral_response (w : World) (initial : List Event)
    (streams : List (List Event)) (messages : List Message) :
    List Char × List Message × World :=
  let (acc, buffer, msgs, tcs, w1, streams1) :=
    outerLoop w initial streams messages [] [] []
  let acc1 := acc ++ buffer
  if tcs = [] then (acc1, msgs, w1)
  else
    let msgs1 := msgs ++
      [⟨"assistant", if acc1 = [] then none else some acc1, tcs, none⟩]
    match nativeToolLoop w1 msgs1 tcs with
    | (.error e, msgs2, w2) => (("Error: " ++ e).data, msgs2, w2)
    | (.ok _, msgs2, w2) => (concatContent (streams1.headD []), msgs2, w2)

/-!
## History truncation and tool descriptors
-/

/-- Model of `messages = messages[-10:]` (main.py line 392): keep only
the last 10 messages.  This is the truncation applied at the top of
every REPL iteration. -/
def truncateHistory (messages : List Message) : List Message :=
  messages.drop (messages.length - 10)

/-- The `required` list of the advertised `file_operation` tool
descriptor (main.py line 183): only `operation` and `path`. -/
def fileOperationRequired : List String := ["operation", "path"]

/-- The parameter names of the advertised `file_operation` tool
descriptor (main.py lines 178-182). -/
def fileOperationProperties : List String := ["operation", "path", "content"]

/-!
## Concrete data for witnesses and counterexamples
-/

/-- A concrete world for concrete runs: fixed clock, trivial oracles,
empty filesystem. -/
def testWorld : World where
  now := "2026-01-01 00:00:00 "
  web := fun _ => "- Title: snippet"
  script := fun _ => .ok none
  parseJson := fun _ => .error "Expecting value: line 1 column 1 (char 0)"
  home := ["home", "u"]
  fs := []
  imports := []

/-- A concrete system message (main.py line 384 seeds the history with
one). -/
def sysMsg : Message := ⟨"system", some "You are Devstral".data, [], none⟩

/-- A concrete user message. -/
def userMsg : Message := ⟨"user", some "hi".data, [], none⟩

/-- The write/read round trip on one path: perform the write, then the
read on the resulting filesystem, and report what the read returns
(`none` when an exception escapes either operation). -/
def writeThenRead (home : PathC) (fs : FS) (p c : String) : Option String :=
  match file_operation home fs "write" p (some c) with
  | .ok (_, fs1) =>
    match file_operation home fs1 "read" p none with
    | .ok (r, _) => some r
    | .error _ => none
  | .error _ => none

/-- A stream event carrying one marker literal for `get_current_time`
(used by the chained-marker runs). -/
def markerEvent : Event := ⟨some "[[get_current_time:]]".data, [], none⟩

/-! ### Scanner correctness lemmas -/

theorem takeWhile_append_of_forall {p : Char → Bool} {l₁ : List Char} (c : Char)
    (l₂ : List Char) (h1 : ∀ x ∈ l₁, p x = true) (h2 : p c = false) :
    (l₁ ++ c :: l₂).takeWhile p = l₁ ∧ (l₁ ++ c :: l₂).dropWhile p = c :: l₂ := by
  induction l₁ with
  | nil => simp [List.takeWhile_cons, List.dropWhile_cons, h2]
  | cons y ys ih =>
    have hy : p y = true := h1 y (by simp)
    have := ih (fun x hx => h1 x (by simp [hx]))
    simp [List.takeWhile_cons, List.dropWhile_cons, hy, this.1, this.2]

theorem matchAtHead_iff (s n a : List Char) (L : Nat) :
    matchAtHead s = some (n, a, L) ↔
      MarkerShape n a ∧ markerText n a <+: s ∧ L = n.length + a.length + 5 := by
  constructor
  · intro h
    match s with
    | [] => exact absurd h (by simp [matchAtHead])
    | [c] => exact absurd h (by simp [matchAtHead])
    | c1 :: c2 :: rest =>
      simp only [matchAtHead] at h
      by_cases hbr : c1 = '[' ∧ c2 = '['
      case neg => rw [if_neg hbr] at h; exact absurd h (by simp)
      obtain ⟨rfl, rfl⟩ := hbr
      rw [if_pos ⟨rfl, rfl⟩] at h
      by_cases hne : rest.takeWhile isWordChar = []
      case pos => rw [if_pos hne] at h; exact absurd h (by simp)
      rw [if_neg hne] at h
      split at h
      rotate_left
      · exact absurd h (by simp)
      rename_i c3 rest2 heq
      by_cases hc3 : c3 = ':'
      case neg => rw [if_neg hc3] at h; exact absurd h (by simp)
      subst hc3
      rw [if_pos rfl] at h
      split at h
      rotate_left
      · exact absurd h (by simp)
      rename_i c4 c5 t heq3
      by_cases hbr2 : c4 = ']' ∧ c5 = ']'
      case neg => rw [if_neg hbr2] at h; exact absurd h (by simp)
      obtain ⟨rfl, rfl⟩ := hbr2
      rw [if_pos ⟨rfl, rfl⟩] at h
      simp only [Option.some.injEq, Prod.mk.injEq] at h
      obtain ⟨rfl, rfl, rfl⟩ := h
      refine ⟨⟨hne, fun c hc => List.mem_takeWhile_imp hc, fun c hc => ?_⟩, ⟨t, ?_⟩, rfl⟩
      · have := List.mem_takeWhile_imp (p := fun c => c != ']') hc
        simpa using this
      · have e1 : rest = rest.takeWhile isWordChar ++ ':' :: rest2 := by
          rw [← heq]; exact (List.takeWhile_append_dropWhile _ _).symm
        have e2 : rest2 = rest2.takeWhile (fun c => c != ']') ++ ']' :: ']' :: t := by
          rw [← heq3]; exact (List.takeWhile_append_dropWhile _ _).symm
        rw [markerText]
        simp only [List.cons_append, List.cons.injEq, true_and, List.drop_zero]
        conv_rhs => rw [e1]
        conv_rhs => rw [e2]
        simp
  · rintro ⟨⟨hne, hword, hargs⟩, ⟨t, ht⟩, rfl⟩
    rw [markerText] at ht
    simp only [List.cons_append, List.append_assoc, List.cons_append] at ht
    subst ht
    have hargsB : ∀ x ∈ a, (x != ']') = true := fun x hx => by
      simpa using hargs x hx
    have h1 := takeWhile_append_of_forall (p := isWordChar)
      ':' (a ++ ']' :: ']' :: t) hword (by decide)
    have h2 := takeWhile_append_of_forall (p := fun c => c != ']')
      ']' (']' :: t) hargsB (by simp)
    simp [matchAtHead, h1.1, h1.2, h2.1, h2.2, hne]

theorem matchAtHead_eq_none_iff (s : List Char) :
    matchAtHead s = none ↔ ∀ n a, ¬ (MarkerShape n a ∧ markerText n a <+: s) := by
  constructor
  · intro h n a hna
    have := (matchAtHead_iff s n a (n.length + a.length + 5)).mpr ⟨hna.1, hna.2, rfl⟩
    rw [h] at this
    exact absurd this (by simp)
  · intro h
    cases hm : matchAtHead s with
    | none => rfl
    | some v =>
      obtain ⟨n, a, L⟩ := v
      have := (matchAtHead_iff s n a L).mp hm
      exact absurd ⟨this.1, this.2.1⟩ (h n a)

theorem matchAt_zero (s n a : List Char) :
    MatchAt s 0 n a ↔ MarkerShape n a ∧ markerText n a <+: s := by
  simp [MatchAt]

theorem matchAt_cons_succ (c : Char) (s : List Char) (j : Nat) (n a : List Char) :
    MatchAt (c :: s) (j + 1) n a ↔ MatchAt s j n a := by
  simp [MatchAt]

theorem noMatch_nil : NoMatch [] := by
  intro i n a hi
  have := hi.2
  simp [markerText, List.prefix_nil] at this

theorem noMatch_cons_iff (c : Char) (s : List Char) :
    NoMatch (c :: s) ↔ matchAtHead (c :: s) = none ∧ NoMatch s := by
  rw [matchAtHead_eq_none_iff]
  constructor
  · intro h
    refine ⟨fun n a hna => h 0 n a ((matchAt_zero _ _ _).mpr hna), ?_⟩
    intro j n a hj
    exact h (j + 1) n a ((matchAt_cons_succ c s j n a).mpr hj)
  · rintro ⟨h0, hs⟩ i n a hi
    cases i with
    | zero => exact h0 n a ((matchAt_zero _ _ _).mp hi)
    | succ j => exact hs j n a ((matchAt_cons_succ c s j n a).mp hi)

theorem scanAux_eq_none_iff (s : List Char) (k : Nat) :
    scanAux s k = none ↔ NoMatch s := by
  induction s generalizing k with
  | nil => simpa [scanAux] using noMatch_nil
  | cons c tail ih =>
    simp only [scanAux]
    cases hm : matchAtHead (c :: tail) with
    | some v =>
      simp only []
      constructor
      · intro h; exact absurd h (by simp)
      · intro h
        rw [(noMatch_cons_iff c tail).mp h |>.1] at hm
        exact absurd hm (by simp)
    | none =>
      simp only []
      rw [ih (k + 1), noMatch_cons_iff c tail]
      simp [hm]

theorem scanAux_eq_some (s : List Char) (k : Nat) (m : Marker)
    (h : scanAux s k = some m) :
    ∃ j, m.start = k + j ∧ MatchAt s j m.name m.args ∧
      m.stop = m.start + (m.name.length + m.args.length + 5) ∧
      (∀ j' n a, MatchAt s j' n a → j ≤ j') := by
  induction s generalizing k with
  | nil => exact absurd h (by simp [scanAux])
  | cons c tail ih =>
    simp only [scanAux] at h
    cases hm : matchAtHead (c :: tail) with
    | some v =>
      obtain ⟨n, a, L⟩ := v
      rw [hm] at h
      simp only [Option.some.injEq] at h
      subst h
      have hv := (matchAtHead_iff (c :: tail) n a L).mp hm
      refine ⟨0, by simp, (matchAt_zero _ _ _).mpr ⟨hv.1, hv.2.1⟩, ?_, fun j' n' a' _ => Nat.zero_le _⟩
      simp [hv.2.2]
    | none =>
      rw [hm] at h
      simp only [] at h
      obtain ⟨j, hstart, hmatch, hstop, hmin⟩ := ih (k + 1) h
      refine ⟨j + 1, by omega, (matchAt_cons_succ c tail j _ _).mpr hmatch, hstop, ?_⟩
      intro j' n a hj'
      cases j' with
      | zero =>
        exact absurd ((matchAt_zero _ _ _).mp hj')
          ((matchAtHead_eq_none_iff _).mp hm n a)
      | succ j'' =>
        have := hmin j'' n a ((matchAt_cons_succ c tail j'' n a).mp hj')
        omega

theorem scanMarker_eq_none_iff (s : List Char) :
    scanMarker s = none ↔ NoMatch s := scanAux_eq_none_iff s 0

theorem scanMarker_eq_some (s : List Char) (m : Marker)
    (h : scanMarker s = some m) :
    MatchAt s m.start m.name m.args ∧
      m.stop = m.start + (m.name.length + m.args.length + 5) ∧
      (∀ j n a, MatchAt s j n a → m.start ≤ j) := by
  obtain ⟨j, hstart, hmatch, hstop, hmin⟩ := scanAux_eq_some s 0 m h
  have hj : m.start = j := by omega
  subst hj
  exact ⟨hmatch, hstop, hmin⟩

theorem markerText_length (n a : List Char) :
    (markerText n a).length = n.length + a.length + 5 := by
  simp [markerText]
  omega

theorem matchAt_lt_length (s : List Char) (i : Nat) (n a : List Char)
    (h : MatchAt s i n a) : i < s.length := by
  obtain ⟨shape, u, hu⟩ := h
  by_contra hle
  push_neg at hle
  have : s.drop i = [] := List.drop_eq_nil_of_le hle
  rw [this] at hu
  have : markerText n a = [] := by
    cases he : markerText n a with
    | nil => rfl
    | cons x xs => rw [he] at hu; simp at hu
  simp [markerText] at this

theorem matchAt_end_le (s : List Char) (i : Nat) (n a : List Char)
    (h : MatchAt s i n a) : i + (n.length + a.length + 5) ≤ s.length := by
  obtain ⟨shape, u, hu⟩ := h
  have hlen := congrArg List.length hu
  simp [markerText_length] at hlen
  have hi : i < s.length := matchAt_lt_length s i n a ⟨shape, u, hu⟩
  omega

theorem matchAt_append_right (s t : List Char) (i : Nat) (n a : List Char)
    (h : MatchAt s i n a) : MatchAt (s ++ t) i n a := by
  obtain ⟨shape, u, hu⟩ := h
  have hi : i ≤ s.length := le_of_lt (matchAt_lt_length s i n a ⟨shape, u, hu⟩)
  refine ⟨shape, u ++ t, ?_⟩
  rw [List.drop_append_of_le_length hi, ← hu]
  simp

theorem matchAt_take (s : List Char) (k i : Nat) (n a : List Char)
    (h : MatchAt (s.take k) i n a) : MatchAt s i n a := by
  have := matchAt_append_right (s.take k) (s.drop k) i n a h
  rwa [List.take_append_drop] at this

theorem matchAt_drop_iff (s : List Char) (k j : Nat) (n a : List Char) :
    MatchAt (s.drop k) j n a ↔ MatchAt s (k + j) n a := by
  unfold MatchAt
  rw [List.drop_drop]

theorem noMatch_take (s : List Char) (k : Nat) (h : NoMatch s) :
    NoMatch (s.take k) :=
  fun i n a hi => h i n a (matchAt_take s k i n a hi)

theorem noMatch_drop (s : List Char) (k : Nat) (h : NoMatch s) :
    NoMatch (s.drop k) :=
  fun i n a hi => h (k + i) n a ((matchAt_drop_iff s k i n a).mp hi)

theorem matchAt_of_take (s : List Char) (k i : Nat) (n a : List Char)
    (h : MatchAt s i n a) (hk : i + (n.length + a.length + 5) ≤ k) :
    MatchAt (s.take k) i n a := by
  obtain ⟨shape, u, hu⟩ := h
  refine ⟨shape, ?_⟩
  have h1 : markerText n a <+: s.drop i := ⟨u, hu⟩
  have h2 : (s.take k).drop i = (s.drop i).take (k - i) := List.drop_take k i s
  rw [h2]
  rw [List.prefix_take_iff]
  exact ⟨h1, by rw [markerText_length]; omega⟩


/-! ### Filesystem lemmas -/

theorem FS.find_set_self (fs : FS) (p : PathC) (e : Entry) :
    FS.find (FS.set fs p e) p = some e := by
  simp [FS.set, FS.find]

theorem find_filter_ne (l : FS) (p q : PathC) (h : q ≠ p) :
    FS.find (l.filter (fun r => decide (r.1 ≠ p))) q = FS.find l q := by
  induction l with
  | nil => rfl
  | cons hd tl ih =>
    obtain ⟨r, e⟩ := hd
    by_cases hr : r = p
    · subst hr
      simp only [List.filter_cons]
      rw [show decide ((r, e).1 ≠ r) = false by simp]
      simp only [Bool.false_eq_true, if_false]
      rw [ih]
      have : ¬ (r = q) := fun hh => h hh.symm
      simp [FS.find, this]
    · simp only [List.filter_cons]
      rw [show decide ((r, e).1 ≠ p) = true by simp [hr]]
      simp only [if_true]
      simp only [FS.find]
      by_cases hrq : r = q
      · rw [if_pos hrq, if_pos hrq]
      · rw [if_neg hrq, if_neg hrq]
        exact ih

theorem FS.find_set_ne (fs : FS) (p q : PathC) (e : Entry) (h : q ≠ p) :
    FS.find (FS.set fs p e) q = FS.find fs q := by
  simp only [FS.set, FS.find]
  rw [if_neg (fun hh => h hh.symm), find_filter_ne fs p q h]

theorem addDirs_nil (fs : FS) : addDirs fs [] = fs := rfl

theorem addDirs_cons (fs : FS) (pp : PathC) (ps : List PathC) :
    addDirs fs (pp :: ps) =
      addDirs
        (match FS.find fs pp with
         | none => FS.set fs pp Entry.dir
         | some _ => fs) ps := rfl

theorem addDirs_preserves (ps : List PathC) (fs : FS) (q : PathC) (e : Entry)
    (h : FS.find fs q = some e) : FS.find (addDirs fs ps) q = some e := by
  induction ps generalizing fs with
  | nil => exact h
  | cons pp ps ih =>
    rw [addDirs_cons]
    cases hf : FS.find fs pp with
    | some e2 => exact ih fs h
    | none =>
      refine ih _ ?_
      have hq : q ≠ pp := by
        intro hh
        rw [hh] at h
        rw [h] at hf
        exact absurd hf (by simp)
      rw [FS.find_set_ne fs pp q Entry.dir hq]
      exact h

theorem addDirs_find_of_not_mem (ps : List PathC) (fs : FS) (q : PathC)
    (h : q ∉ ps) : FS.find (addDirs fs ps) q = FS.find fs q := by
  induction ps generalizing fs with
  | nil => rfl
  | cons pp ps ih =>
    rw [addDirs_cons]
    have hq : q ≠ pp := fun hh => h (by simp [hh])
    have hq2 : q ∉ ps := fun hh => h (by simp [hh])
    cases hf : FS.find fs pp with
    | some e2 => exact ih fs hq2
    | none =>
      rw [ih _ hq2]
      exact FS.find_set_ne fs pp q Entry.dir hq

theorem mem_strictAncestors_length {p q : PathC} (h : q ∈ strictAncestors p) :
    q.length < p.length := by
  simp only [strictAncestors, List.mem_map, List.mem_range] at h
  obtain ⟨k, hk, rfl⟩ := h
  simp only [List.length_take]
  omega

theorem not_mem_strictAncestors_self (p : PathC) : p ∉ strictAncestors p :=
  fun h => absurd (mem_strictAncestors_length h) (lt_irrefl _)

theorem ensureRoot_of_dir (fs : FS) (base : PathC)
    (h : FS.find fs base = some Entry.dir) : ensureRoot fs base = .ok fs := by
  simp [ensureRoot, h]

/-! ### Reduction lemmas for `file_operation` -/

theorem file_operation_write_ok (home : PathC) (fs : FS) (p c : String)
    (hbase : FS.find fs (home ++ ["devstral_sandbox"]) = some Entry.dir)
    (hcheck : insideCheck (home ++ ["devstral_sandbox"])
      (resolveTarget (home ++ ["devstral_sandbox"]) p) = true)
    (hnodir : FS.find fs (resolveTarget (home ++ ["devstral_sandbox"]) p) ≠
      some Entry.dir)
    (hanc : ∀ q ∈ strictAncestors (resolveTarget (home ++ ["devstral_sandbox"]) p),
      isFileEntry (FS.find fs q) = false) :
    file_operation home fs "write" p (some c) =
      .ok ("Successfully wrote to " ++ p,
        FS.set
          (addDirs fs (strictAncestors (resolveTarget (home ++ ["devstral_sandbox"]) p)))
          (resolveTarget (home ++ ["devstral_sandbox"]) p) (Entry.file c)) := by
  have hanyf : (strictAncestors (resolveTarget (home ++ ["devstral_sandbox"]) p)).any
      (fun q => isFileEntry (FS.find fs q)) = false := by
    rw [List.any_eq_false]
    intro q hq
    simp [hanc q hq]
  have hfs1t : FS.find
      (addDirs fs (strictAncestors (resolveTarget (home ++ ["devstral_sandbox"]) p)))
      (resolveTarget (home ++ ["devstral_sandbox"]) p) =
      FS.find fs (resolveTarget (home ++ ["devstral_sandbox"]) p) :=
    addDirs_find_of_not_mem _ fs _ (not_mem_strictAncestors_self _)
  simp only [file_operation]
  rw [ensureRoot_of_dir fs _ hbase]
  simp only [hcheck, hanyf]
  cases hft : FS.find fs (resolveTarget (home ++ ["devstral_sandbox"]) p) with
  | none =>
    rw [hft] at hfs1t
    simp [hfs1t]
  | some e =>
    cases e with
    | file s =>
      rw [hft] at hfs1t
      simp [hfs1t]
    | dir => exact absurd hft hnodir

theorem file_operation_read_ok (home : PathC) (fs : FS) (p c : String)
    (hbase : FS.find fs (home ++ ["devstral_sandbox"]) = some Entry.dir)
    (hcheck : insideCheck (home ++ ["devstral_sandbox"])
      (resolveTarget (home ++ ["devstral_sandbox"]) p) = true)
    (hfile : FS.find fs (resolveTarget (home ++ ["devstral_sandbox"]) p) =
      some (Entry.file c)) :
    file_operation home fs "read" p none = .ok (c, fs) := by
  simp only [file_operation]
  rw [ensureRoot_of_dir fs _ hbase]
  simp [hcheck, hfile]

theorem file_operation_write_none (home : PathC) (fs : FS) (p : String)
    (hbase : FS.find fs (home ++ ["devstral_sandbox"]) = some Entry.dir)
    (hcheck : insideCheck (home ++ ["devstral_sandbox"])
      (resolveTarget (home ++ ["devstral_sandbox"]) p) = true) :
    file_operation home fs "write" p none =
      .ok ("Error: Content is required for write operation.", fs) := by
  simp only [file_operation]
  rw [ensureRoot_of_dir fs _ hbase]
  simp [hcheck]

/-! ### Orchestrator lemmas -/

theorem concatContent_nil : concatContent [] = [] := rfl

theorem concatContent_cons (e : Event) (rest : List Event) :
    concatContent (e :: rest) = (e.content.getD []) ++ concatContent rest := by
  simp [concatContent]

theorem noMatch_append_left (x y : List Char) (h : NoMatch (x ++ y)) :
    NoMatch x :=
  fun i n a hi => h i n a (matchAt_append_right x y i n a hi)

theorem processFollowUp_tcs (evs : List Event) :
    ∀ (acc : List Char) (tcs : List ToolCall),
      (∀ e ∈ evs, e.toolCalls = []) → (processFollowUp evs acc tcs).2 = tcs := by
  induction evs with
  | nil => intro acc tcs _; rfl
  | cons e rest ih =>
    intro acc tcs h
    have he : e.toolCalls = [] := h e (by simp)
    simp only [processFollowUp, he, List.append_nil]
    split
    · rfl
    · exact ih _ tcs (fun e2 h2 => h e2 (by simp [h2]))

theorem headD_nil_or_mem (streams : List (List Event)) :
    streams.headD [] = [] ∨ streams.headD [] ∈ streams := by
  cases streams with
  | nil => exact Or.inl rfl
  | cons s ss => exact Or.inr (by simp)

theorem outerLoop_no_match (events : List Event) :
    ∀ (streams : List (List Event)) (msgs : List Message)
      (acc buffer : List Char) (tcs : List ToolCall) (w : World),
    (∀ e ∈ events, e.toolCalls = [] ∧ e.finishReason ≠ some "tool_calls") →
    NoMatch (buffer ++ concatContent events) →
    outerLoop w events streams msgs acc buffer tcs =
      (acc, buffer ++ concatContent events, msgs, tcs, w, streams) := by
  induction events with
  | nil =>
    intro streams msgs acc buffer tcs w _ _
    simp [outerLoop, concatContent]
  | cons e rest ih =>
    intro streams msgs acc buffer tcs w hEv hNM
    obtain ⟨ec, etc, efr⟩ := e
    have h1 : etc = [] := (hEv ⟨ec, etc, efr⟩ (by simp)).1
    have h2 : efr ≠ some "tool_calls" :=
      (hEv ⟨ec, etc, efr⟩ (by simp)).2
    subst h1
    have hrest : ∀ e2 ∈ rest, e2.toolCalls = [] ∧ e2.finishReason ≠ some "tool_calls" :=
      fun e2 hm => hEv e2 (by simp [hm])
    have hcc : concatContent (⟨ec, [], efr⟩ :: rest) =
        (ec.getD []) ++ concatContent rest := concatContent_cons _ _
    cases ec with
    | none =>
      simp only [outerLoop, List.append_nil]
      rw [if_neg h2]
      rw [ih streams msgs acc buffer tcs w hrest
        (by simpa [hcc] using hNM)]
      simp [hcc]
    | some c =>
      by_cases hcz : c = []
      · subst hcz
        simp only [outerLoop, List.append_nil, if_pos rfl]
        rw [if_neg h2]
        rw [ih streams msgs acc buffer tcs w hrest
          (by simpa [hcc] using hNM)]
        simp [hcc]
      · have hNMT : NoMatch ((buffer ++ c) ++ concatContent rest) := by
          simpa [hcc, List.append_assoc] using hNM
        have hNM1 : NoMatch (buffer ++ c) :=
          noMatch_append_left _ _ hNMT
        have hscan : scanMarker (buffer ++ c) = none :=
          (scanMarker_eq_none_iff _).mpr hNM1
        simp only [outerLoop, if_neg hcz, hscan, List.append_nil]
        rw [if_neg h2]
        rw [ih streams msgs acc (buffer ++ c) tcs w hrest hNMT]
        simp [hcc]

/-!
## Claim theorems
-/

/-- C1: the spec demands that whenever the canonical resolution of the
requested path is not a descendant of the sandbox root, `file_operation`
returns an error and performs no I/O, fail-closed.  The code violates
this: its confinement check (main.py line 21) is a string-prefix test on
the rendered paths, so a sibling directory whose name merely extends
`devstral_sandbox` passes the check, and a read outside the sandbox is
performed and its content returned.  (The spec's own example
`path/../../etc/passwd` is rejected, as the last conjunct shows, but the
check is not fail-closed.) -/
theorem c1_confinement_check_not_fail_closed :
    isDescendant ["home", "u", "devstral_sandbox"]
      (resolveTarget ["home", "u", "devstral_sandbox"]
        "../devstral_sandbox_evil/secret") = false ∧
    insideCheck ["home", "u", "devstral_sandbox"]
      (resolveTarget ["home", "u", "devstral_sandbox"]
        "../devstral_sandbox_evil/secret") = true ∧
    file_operation ["home", "u"]
      [(["home", "u", "devstral_sandbox"], Entry.dir),
       (["home", "u", "devstral_sandbox_evil"], Entry.dir),
       (["home", "u", "devstral_sandbox_evil", "secret"], Entry.file "TOPSECRET")]
      "read" "../devstral_sandbox_evil/secret" none =
      .ok ("TOPSECRET",
        [(["home", "u", "devstral_sandbox"], Entry.dir),
         (["home", "u", "devstral_sandbox_evil"], Entry.dir),
         (["home", "u", "devstral_sandbox_evil", "secret"], Entry.file "TOPSECRET")]) ∧
    file_operation ["home", "u"]
      [(["home", "u", "devstral_sandbox"], Entry.dir)]
      "read" "path/../../etc/passwd" none =
      .ok ("Error: Path is outside the allowed directory.",
        [(["home", "u", "devstral_sandbox"], Entry.dir)]) := by
  decide

/-- C2: the spec demands that truncating Conversation State to the last
10 messages keeps the system message first, re-inserting it when naive
windowing would drop it.  The code truncates with `messages[-10:]`
(main.py line 392) and never re-inserts: an 11-message history that
starts with the system message loses it — the truncated history has 10
messages, starts with a user message, and contains no system message at
all. -/
theorem c2_truncation_loses_system_message :
    (sysMsg :: List.replicate 10 userMsg).head? = some sysMsg ∧
    (truncateHistory (sysMsg :: List.replicate 10 userMsg)).length = 10 ∧
    (truncateHistory (sysMsg :: List.replicate 10 userMsg)).head? = some userMsg ∧
    ∀ m ∈ truncateHistory (sysMsg :: List.replicate 10 userMsg),
      m.role ≠ "system" := by
  decide

/-- C3: the spec demands `calculate_math` evaluate `"2 + 3 * 4"` to 14
and reject `"__import__('os')"` with an error on both paths, in a
restricted numeric-only environment.  The code violates this on both
paths: the inline-marker path (line 197) is a bare `eval(args)`, which
does give `"14"` but also executes `__import__('os')` — the import is
performed (the model's import log records it) and the module's repr is
returned, not an error; and the native path (line 323) names
`SAFE_MATH_GLOBALS`, which the module never defines, so it returns a
`NameError` message for every expression, `"2 + 3 * 4"` included. -/
theorem c3_calculate_math_unrestricted_and_native_broken :
    (execute_function testWorld "calculate_math" "2 + 3 * 4").1 = "14" ∧
    (execute_function testWorld "calculate_math" "__import__('os')").1 =
      "<module 'os'>" ∧
    (execute_function testWorld "calculate_math" "__import__('os')").2.imports =
      ["os"] ∧
    ("Error".data.isPrefixOf
      (execute_function testWorld "calculate_math" "__import__('os')").1.data) = false ∧
    nativeCalcMath "2 + 3 * 4" =
      "Error evaluating expression '2 + 3 * 4': name 'SAFE_MATH_GLOBALS' is not defined" := by
  decide

/-- C4: for every tool name and argument string, `execute_function`
returns a text result and never raises: its body either returns a string
normally, or raises and the `except` at line 210 converts the exception
to `"Error in {name}: {str(e)}"` — an error string carrying the failing
tool's name; a name outside the dispatch table yields the
unknown-function error string rather than an exception. -/
theorem c4_executor_never_raises (w : World) (fname args : String) :
    ((∃ s w1, execBody w fname args = (Except.ok s, w1) ∧
        execute_function w fname args = (s, w1)) ∨
      (∃ e w1, execBody w fname args = (Except.error e, w1) ∧
        execute_function w fname args = ("Error in " ++ fname ++ ": " ++ e, w1))) ∧
    (fname ∉ knownFunctionNames →
      (execute_function w fname args).1 =
        "Error: Unknown function '" ++ fname ++ "'.") := by
  constructor
  · rcases h : execBody w fname args with ⟨r, w1⟩
    cases r with
    | ok s =>
      refine Or.inl ⟨s, w1, rfl, ?_⟩
      unfold execute_function
      rw [h]
    | error e =>
      refine Or.inr ⟨e, w1, rfl, ?_⟩
      unfold execute_function
      rw [h]
  · intro hn
    simp only [knownFunctionNames, List.mem_cons, List.not_mem_nil, or_false,
      not_or] at hn
    obtain ⟨h1, h2, h3, h4, h5⟩ := hn
    unfold execute_function execBody
    rw [if_neg h1, if_neg h2, if_neg h3, if_neg h4, if_neg h5]

/-- Witness for C4: a concrete unknown tool name yields the
unknown-function error string. -/
theorem c4_executor_never_raises_witness :
    ("frobnicate" ∉ knownFunctionNames) ∧
    (execute_function testWorld "frobnicate" "x").1 =
      "Error: Unknown function 'frobnicate'." :=
  ⟨by decide, (c4_executor_never_raises testWorld "frobnicate" "x").2 (by decide)⟩

/-- C5: the Scanner reports exactly the first occurrence of the marker
pattern: it returns `none` precisely when no occurrence exists; a
returned marker is an occurrence, its span length is that of the whole
literal, and no occurrence starts earlier; and on the concrete buffer
`"[[calculate_math:2+2]]"` it returns name `calculate_math`, args
`2+2`, and the span `[0, 22)` covering the whole literal. -/
theorem c5_scanner_reports_first_match :
    (∀ s : List Char, scanMarker s = none ↔ NoMatch s) ∧
    (∀ (s : List Char) (m : Marker), scanMarker s = some m →
      MatchAt s m.start m.name m.args ∧
      m.stop = m.start + (m.name.length + m.args.length + 5) ∧
      ∀ j n a, MatchAt s j n a → m.start ≤ j) ∧
    scanMarker "[[calculate_math:2+2]]".data =
      some ⟨"calculate_math".data, "2+2".data, 0, 22⟩ :=
  ⟨scanMarker_eq_none_iff, scanMarker_eq_some, by decide⟩

/-- Witness for C5: the no-marker direction applied to a concrete
marker-free buffer, and the occurrence facts applied to the concrete
marker buffer. -/
theorem c5_scanner_reports_first_match_witness :
    NoMatch "no marker here".data ∧
    MatchAt "[[calculate_math:2+2]]".data 0 "calculate_math".data "2+2".data :=
  ⟨(c5_scanner_reports_first_match.1 _).mp (by decide),
   (c5_scanner_reports_first_match.2.1 "[[calculate_math:2+2]]".data
      ⟨"calculate_math".data, "2+2".data, 0, 22⟩ (by decide)).1⟩

/-- C9 counterexample: the round trip fails for an in-sandbox path whose
resolved target is an existing directory.  The write raises
`IsADirectoryError` (caught and returned as text), and the read then
reports a non-file — it does not return the written content. -/
theorem c9_roundtrip_fails_on_directory_path :
    isDescendant ["home", "u", "devstral_sandbox"]
      (resolveTarget ["home", "u", "devstral_sandbox"] "d") = true ∧
    writeThenRead ["home", "u"]
      [(["home", "u", "devstral_sandbox"], Entry.dir),
       (["home", "u", "devstral_sandbox", "d"], Entry.dir)] "d" "hello" =
      some "Error: d is not a file or does not exist." ∧
    writeThenRead ["home", "u"]
      [(["home", "u", "devstral_sandbox"], Entry.dir),
       (["home", "u", "devstral_sandbox", "d"], Entry.dir)] "d" "hello" ≠
      some "hello" := by
  decide

/-- C9 amended: `write` followed by `read` on the same path returns
exactly the written content, for every path that passes the confinement
check, provided the resolved target is not an existing directory and no
ancestor of it is an existing regular file (otherwise the write itself
fails, as the counterexample shows). -/
theorem c9_write_read_roundtrip (home : PathC) (fs : FS) (p c : String)
    (hbase : FS.find fs (home ++ ["devstral_sandbox"]) = some Entry.dir)
    (hcheck : insideCheck (home ++ ["devstral_sandbox"])
      (resolveTarget (home ++ ["devstral_sandbox"]) p) = true)
    (hnodir : FS.find fs (resolveTarget (home ++ ["devstral_sandbox"]) p) ≠
      some Entry.dir)
    (hanc : ∀ q ∈ strictAncestors (resolveTarget (home ++ ["devstral_sandbox"]) p),
      isFileEntry (FS.find fs q) = false) :
    writeThenRead home fs p c = some c := by
  have hw := file_operation_write_ok home fs p c hbase hcheck hnodir hanc
  set t := resolveTarget (home ++ ["devstral_sandbox"]) p with htdef
  set fs1 := addDirs fs (strictAncestors t) with hfs1def
  set fs2 := FS.set fs1 t (Entry.file c) with hfs2def
  have htb : t ≠ home ++ ["devstral_sandbox"] := by
    intro hh
    apply hnodir
    rw [hh]
    exact hbase
  have hbase2 : FS.find fs2 (home ++ ["devstral_sandbox"]) = some Entry.dir := by
    rw [hfs2def, FS.find_set_ne _ _ _ _ (fun hh => htb hh.symm)]
    exact addDirs_preserves _ fs _ _ hbase
  have hfile2 : FS.find fs2 t = some (Entry.file c) := FS.find_set_self fs1 t _
  have hr := file_operation_read_ok home fs2 p c hbase2 hcheck hfile2
  simp only [writeThenRead, hw, hr]

/-- Witness for C9's round-trip theorem at a concrete input. -/
theorem c9_write_read_roundtrip_witness :
    writeThenRead ["home", "u"] [(["home", "u", "devstral_sandbox"], Entry.dir)]
      "notes/a.txt" "hi" = some "hi" :=
  c9_write_read_roundtrip ["home", "u"]
    [(["home", "u", "devstral_sandbox"], Entry.dir)] "notes/a.txt" "hi"
    (by decide) (by decide) (by decide) (by decide)

/-- C10 counterexample: with content absent, the claimed error string is
only returned for paths that pass the confinement check; a path that
fails the check gets the path error instead (still with no write), so
the claim's "for every path" fails. -/
theorem c10_write_none_outside_path_gets_path_error :
    file_operation ["home", "u"] [(["home", "u", "devstral_sandbox"], Entry.dir)]
      "write" "path/../../etc/passwd" none =
      .ok ("Error: Path is outside the allowed directory.",
        [(["home", "u", "devstral_sandbox"], Entry.dir)]) ∧
    ("Error: Path is outside the allowed directory." : String) ≠
      "Error: Content is required for write operation." := by
  decide

/-- C10 amended: for every path that passes the confinement check, a
write with absent content returns exactly
`"Error: Content is required for write operation."` and leaves the
filesystem unchanged — while the advertised tool descriptor marks
`content` optional (its `required` list holds only `operation` and
`path`). -/
theorem c10_write_requires_content (home : PathC) (fs : FS) (p : String)
    (hbase : FS.find fs (home ++ ["devstral_sandbox"]) = some Entry.dir)
    (hcheck : insideCheck (home ++ ["devstral_sandbox"])
      (resolveTarget (home ++ ["devstral_sandbox"]) p) = true) :
    file_operation home fs "write" p none =
      .ok ("Error: Content is required for write operation.", fs) ∧
    "content" ∉ fileOperationRequired ∧
    "content" ∈ fileOperationProperties ∧
    "operation" ∈ fileOperationRequired ∧ "path" ∈ fileOperationRequired :=
  ⟨file_operation_write_none home fs p hbase hcheck,
   by decide, by decide, by decide, by decide⟩

/-- Witness for C10's amended theorem at a concrete input. -/
theorem c10_write_requires_content_witness :
    file_operation ["home", "u"] [(["home", "u", "devstral_sandbox"], Entry.dir)]
      "write" "a.txt" none =
      .ok ("Error: Content is required for write operation.",
        [(["home", "u", "devstral_sandbox"], Entry.dir)]) :=
  (c10_write_requires_content ["home", "u"]
    [(["home", "u", "devstral_sandbox"], Entry.dir)] "a.txt"
    (by decide) (by decide)).1

/-- C8: when the initial stream's text contains no complete marker (in
particular when it ends with an unmatched partial marker) and no
structured tool calls arrive, the turn ends normally: the leftover scan
buffer — the entire streamed text — is appended to the final assistant
content (main.py line 302), nothing is raised, and Conversation State is
untouched. -/
theorem c8_leftover_buffer_is_final_text (w : World) (initial : List Event)
    (streams : List (List Event)) (messages : List Message)
    (hEv : ∀ e ∈ initial, e.toolCalls = [] ∧ e.finishReason ≠ some "tool_calls")
    (hNM : NoMatch (concatContent initial)) :
    get_devstral_response w initial streams messages =
      (concatContent initial, messages, w) := by
  unfold get_devstral_response
  rw [outerLoop_no_match initial streams messages [] [] [] w hEv
    (by simpa using hNM)]
  simp

/-- Witness for C8: a turn whose text ends with an unmatched partial
marker (no closing `]]`) returns that raw text. -/
theorem c8_leftover_buffer_witness :
    get_devstral_response testWorld
      [⟨some "hello [[calc".data, [], none⟩, ⟨some "ulate".data, [], none⟩]
      [] [sysMsg] =
      ("hello [[calculate".data, [sysMsg], testWorld) := by
  rw [c8_leftover_buffer_is_final_text testWorld _ _ _ (by decide)
    ((scanMarker_eq_none_iff _).mp (by decide))]
  rfl

/-- Variant of `scanMarker_eq_some` with the marker's fields explicit. -/
theorem scanMarker_eq_some_fields (s mn ma : List Char) (ms mst : Nat)
    (h : scanMarker s = some ⟨mn, ma, ms, mst⟩) :
    MatchAt s ms mn ma ∧ mst = ms + (mn.length + ma.length + 5) ∧
      ∀ j n a, MatchAt s j n a → ms ≤ j :=
  scanMarker_eq_some s _ h

/-- Running the outer loop (with empty accumulator and collected-call
list) over events whose concatenated text contains exactly one marker
occurrence: the marker is detected when it completes, the tool is
executed once, and exactly the two assistant messages of main.py lines
260-268 are appended — the first carrying the pre-marker text with the
spliced result, the second the bracketed tool-result record; the
collected tool-call list stays empty and the world is the executor's
output world. -/
theorem outerLoop_single_marker (events : List Event) :
    ∀ (streams : List (List Event)) (msgs : List Message) (buffer : List Char)
      (w : World) (i : Nat) (n a : List Char),
    (∀ e ∈ events, e.toolCalls = [] ∧ e.finishReason ≠ some "tool_calls") →
    (∀ s ∈ streams, ∀ e ∈ s, e.toolCalls = []) →
    NoMatch buffer →
    MatchAt (buffer ++ concatContent events) i n a →
    (∀ j n2 a2, MatchAt (buffer ++ concatContent events) j n2 a2 →
      j = i ∧ n2 = n ∧ a2 = a) →
    ∃ facc bufEnd streams1,
      outerLoop w events streams msgs [] buffer [] =
        (facc, bufEnd, msgs ++
          [⟨"assistant", some ((buffer ++ concatContent events).take i ++
              (execute_function w (String.mk n) (String.mk a)).1.data), [], none⟩,
           ⟨"assistant", some (toolResultText n
              (execute_function w (String.mk n) (String.mk a)).1), [], none⟩],
          [], (execute_function w (String.mk n) (String.mk a)).2, streams1) := by
  induction events with
  | nil =>
    intro streams msgs buffer w i n a hEv hFol hNMb hM hU
    rw [concatContent_nil, List.append_nil] at hM
    exact absurd hM (hNMb i n a)
  | cons e rest ih =>
    intro streams msgs buffer w i n a hEv hFol hNMb hM hU
    obtain ⟨ec, etc, efr⟩ := e
    have h1 : etc = [] := (hEv ⟨ec, etc, efr⟩ (by simp)).1
    have h2 : efr ≠ some "tool_calls" := (hEv ⟨ec, etc, efr⟩ (by simp)).2
    subst h1
    have hrest : ∀ e2 ∈ rest, e2.toolCalls = [] ∧ e2.finishReason ≠ some "tool_calls" :=
      fun e2 hm => hEv e2 (by simp [hm])
    have hcc : concatContent (⟨ec, [], efr⟩ :: rest) =
        (ec.getD []) ++ concatContent rest := concatContent_cons _ _
    cases ec with
    | none =>
      have hM' : MatchAt (buffer ++ concatContent rest) i n a := by
        simpa [hcc] using hM
      have hU' : ∀ j n2 a2, MatchAt (buffer ++ concatContent rest) j n2 a2 →
          j = i ∧ n2 = n ∧ a2 = a := fun j n2 a2 hj =>
        hU j n2 a2 (by simpa [hcc] using hj)
      obtain ⟨facc, bufEnd, streams1, hout⟩ :=
        ih streams msgs buffer w i n a hrest hFol hNMb hM' hU'
      refine ⟨facc, bufEnd, streams1, ?_⟩
      simp only [outerLoop, List.append_nil]
      rw [if_neg h2, hout]
      simp [hcc]
    | some c =>
      by_cases hcz : c = []
      · subst hcz
        have hM' : MatchAt (buffer ++ concatContent rest) i n a := by
          simpa [hcc] using hM
        have hU' : ∀ j n2 a2, MatchAt (buffer ++ concatContent rest) j n2 a2 →
            j = i ∧ n2 = n ∧ a2 = a := fun j n2 a2 hj =>
          hU j n2 a2 (by simpa [hcc] using hj)
        obtain ⟨facc, bufEnd, streams1, hout⟩ :=
          ih streams msgs buffer w i n a hrest hFol hNMb hM' hU'
        refine ⟨facc, bufEnd, streams1, ?_⟩
        simp only [outerLoop, List.append_nil, if_pos rfl]
        rw [if_neg h2, hout]
        simp [hcc]
      · have hT : buffer ++ concatContent (⟨some c, [], efr⟩ :: rest) =
            (buffer ++ c) ++ concatContent rest := by
          simp [hcc, List.append_assoc]
        cases hscan : scanMarker (buffer ++ c) with
        | none =>
          have hNM1 : NoMatch (buffer ++ c) := (scanMarker_eq_none_iff _).mp hscan
          obtain ⟨facc, bufEnd, streams1, hout⟩ :=
            ih streams msgs (buffer ++ c) w i n a hrest hFol hNM1
              (by rw [hT] at hM; exact hM)
              (fun j n2 a2 hj => hU j n2 a2 (by rw [hT]; exact hj))
          refine ⟨facc, bufEnd, streams1, ?_⟩
          simp only [outerLoop, if_neg hcz, hscan, List.append_nil]
          rw [if_neg h2, hout, hT]
        | some m =>
          obtain ⟨mn, ma, ms, mst⟩ := m
          obtain ⟨hmAt, hmStop, hmMin⟩ :=
            scanMarker_eq_some_fields _ _ _ _ _ hscan
          have hmT : MatchAt (buffer ++ concatContent (⟨some c, [], efr⟩ :: rest))
              ms mn ma := by
            rw [hT]
            exact matchAt_append_right _ _ _ _ _ hmAt
          obtain ⟨hms, hmn, hma⟩ := hU ms mn ma hmT
          subst hms
          subst hmn
          subst hma
          have hep := matchAt_end_le _ _ _ _ hmAt
          have hNMrest : NoMatch (concatContent rest) := by
            intro j n2 a2 hj
            have hdrop : ((buffer ++ c) ++ concatContent rest).drop
                (buffer ++ c).length = concatContent rest := List.drop_left _ _
            have hjT : MatchAt ((buffer ++ c) ++ concatContent rest)
                ((buffer ++ c).length + j) n2 a2 := by
              rw [← hdrop] at hj
              exact (matchAt_drop_iff _ _ _ _ _).mp hj
            have h3 := hU _ _ _ (by rw [hT]; exact hjT)
            have h4 := h3.1
            omega
          have htake : (buffer ++ concatContent (⟨some c, [], efr⟩ :: rest)).take ms =
              (buffer ++ c).take ms := by
            rw [hT]
            exact List.take_append_of_le_length (by omega)
          rcases hPF : processFollowUp (streams.headD []) [] [] with ⟨fAcc, tcs1⟩
          have htcs : tcs1 = [] := by
            rcases headD_nil_or_mem streams with hh | hh
            · rw [hh] at hPF
              exact ((Prod.mk.injEq _ _ _ _).mp hPF.symm).2.symm ▸ rfl
            · have := processFollowUp_tcs _ [] []
                (fun e2 he2 => hFol _ hh e2 he2)
              rw [hPF] at this
              exact this
          refine ⟨fAcc, [] ++ concatContent rest, streams.tail, ?_⟩
          simp only [outerLoop, if_neg hcz, hscan, List.append_nil, hPF]
          rw [if_neg h2]
          rw [htcs]
          rw [outerLoop_no_match rest streams.tail _ fAcc [] [] _ hrest
            (by simpa using hNMrest)]
          rw [htake]
          simp
  -- end of induction

/-- Uniqueness of a marker occurrence, established from a scanner run:
if the scanner reports the occurrence at `i` and no other position
admits an anchored match, then every occurrence equals it. -/
theorem unique_match_from_scan (s : List Char) (i : Nat) (n a : List Char)
    (hscan : scanMarker s = some ⟨n, a, i, i + (n.length + a.length + 5)⟩)
    (hrest : ((List.range s.length).filter (fun j => decide (i < j))).all
      (fun j => (matchAtHead (s.drop j)).isNone) = true) :
    ∀ j n2 a2, MatchAt s j n2 a2 → j = i ∧ n2 = n ∧ a2 = a := by
  intro j n2 a2 hj
  obtain ⟨hAt, _, hMin⟩ := scanMarker_eq_some_fields _ _ _ _ _ hscan
  have hmin : i ≤ j := hMin j n2 a2 hj
  have hjlt : j < s.length := matchAt_lt_length _ _ _ _ hj
  have hj0 : matchAtHead (s.drop j) = some (n2, a2, n2.length + a2.length + 5) := by
    rw [matchAtHead_iff]
    exact ⟨hj.1, hj.2, rfl⟩
  rcases Nat.eq_or_lt_of_le hmin with heq | hlt
  · subst heq
    have hi0 : matchAtHead (s.drop i) = some (n, a, n.length + a.length + 5) := by
      rw [matchAtHead_iff]
      exact ⟨hAt.1, hAt.2, rfl⟩
    rw [hi0] at hj0
    simp only [Option.some.injEq, Prod.mk.injEq] at hj0
    exact ⟨rfl, hj0.1.symm, hj0.2.1.symm⟩
  · have hjmem : j ∈ (List.range s.length).filter (fun j2 => decide (i < j2)) := by
      simp [List.mem_filter, List.mem_range, hjlt, hlt]
    have hnone := List.all_eq_true.mp hrest j hjmem
    rw [Option.isNone_iff_eq_none] at hnone
    exact absurd hj0 (by rw [hnone]; simp)

/-- C6: a turn whose initial stream's text contains exactly one inline
marker makes Conversation State gain exactly two new assistant-side
messages — the first containing the pre-marker content (with the tool
result spliced after it, main.py line 256), the second the bracketed
tool-result record — and nothing else, whatever the follow-up stream
carries; its output only goes into the turn's returned text. -/
theorem c6_single_marker_gains_two_messages (w : World) (initial : List Event)
    (streams : List (List Event)) (messages : List Message)
    (i : Nat) (n a : List Char)
    (hEv : ∀ e ∈ initial, e.toolCalls = [] ∧ e.finishReason ≠ some "tool_calls")
    (hFol : ∀ s ∈ streams, ∀ e ∈ s, e.toolCalls = [])
    (hM : MatchAt (concatContent initial) i n a)
    (hU : ∀ j n2 a2, MatchAt (concatContent initial) j n2 a2 →
      j = i ∧ n2 = n ∧ a2 = a) :
    ∃ finalText w1,
      get_devstral_response w initial streams messages =
        (finalText,
         messages ++
          [⟨"assistant", some ((concatContent initial).take i ++
              (execute_function w (String.mk n) (String.mk a)).1.data), [], none⟩,
           ⟨"assistant", some (toolResultText n
              (execute_function w (String.mk n) (String.mk a)).1), [], none⟩],
         w1) := by
  obtain ⟨facc, bufEnd, streams1, hout⟩ :=
    outerLoop_single_marker initial streams messages [] w i n a hEv hFol
      noMatch_nil (by simpa using hM)
      (fun j n2 a2 hj => hU j n2 a2 (by simpa using hj))
  refine ⟨facc ++ bufEnd, (execute_function w (String.mk n) (String.mk a)).2, ?_⟩
  unfold get_devstral_response
  rw [hout]
  simp

/-- Witness for C6: a concrete two-delta stream whose text carries one
marker split across the deltas, with pre- and post-marker text and a
follow-up stream. -/
theorem c6_single_marker_witness :
    ∃ finalText w1,
      get_devstral_response testWorld
        [⟨some "pre [[calculate_m".data, [], none⟩,
         ⟨some "ath:2+3]] post".data, [], none⟩]
        [[⟨some "followup".data, [], none⟩]] [sysMsg] =
        (finalText,
         [sysMsg] ++
          [⟨"assistant", some ((concatContent
              [⟨some "pre [[calculate_m".data, [], none⟩,
               ⟨some "ath:2+3]] post".data, [], none⟩]).take 4 ++
              (execute_function testWorld (String.mk "calculate_math".data)
                (String.mk "2+3".data)).1.data), [], none⟩,
           ⟨"assistant", some (toolResultText "calculate_math".data
              (execute_function testWorld (String.mk "calculate_math".data)
                (String.mk "2+3".data)).1), [], none⟩],
         w1) :=
  c6_single_marker_gains_two_messages testWorld
    [⟨some "pre [[calculate_m".data, [], none⟩,
     ⟨some "ath:2+3]] post".data, [], none⟩]
    [[⟨some "followup".data, [], none⟩]] [sysMsg]
    4 "calculate_math".data "2+3".data
    (by decide) (by decide) (by decide)
    (unique_match_from_scan "pre [[calculate_math:2+3]] post".data 4
      "calculate_math".data "2+3".data (by decide) (by decide))

/-- C7 counterexample: a marker appearing in a restarted follow-up
stream is NOT detected: the turn below has one marker in the initial
stream (handled: two messages appended) and one marker in the follow-up
stream, which triggers nothing — Conversation State gains exactly two
messages, and the follow-up marker text survives verbatim (still a
marker occurrence) in the turn's final text. -/
theorem c7_followup_stream_markers_ignored :
    (get_devstral_response testWorld [markerEvent]
      [[⟨some "see [[get_current_time:]] now".data, [], none⟩]] [sysMsg]).1 =
      "see [[get_current_time:]] now".data ∧
    (get_devstral_response testWorld [markerEvent]
      [[⟨some "see [[get_current_time:]] now".data, [], none⟩]] [sysMsg]).2.1.length
      = 3 ∧
    MatchAt "see [[get_current_time:]] now".data 4 "get_current_time".data [] ∧
    MatchAt (get_devstral_response testWorld [markerEvent]
      [[⟨some "see [[get_current_time:]] now".data, [], none⟩]] [sysMsg]).1 4
      "get_current_time".data [] := by
  refine ⟨by decide, by decide, by decide, by decide⟩

/-- One step of the outer loop on a whole-marker event: the marker is
detected, `get_current_time` executes (returning the clock string and
leaving the world unchanged), the two messages are appended, one
follow-up stream is consumed, and the loop continues on the remaining
events with cleared accumulator state. -/
theorem outerLoop_marker_step (w : World) (events : List Event)
    (streams : List (List Event)) (msgs : List Message) (acc : List Char)
    (tcs : List ToolCall) :
    outerLoop w (markerEvent :: events) streams msgs acc [] tcs =
      outerLoop w events streams.tail
        (msgs ++
          [⟨"assistant", some (acc ++ ("Current local time: " ++ w.now).data),
            [], none⟩,
           ⟨"assistant", some (toolResultText "get_current_time".data
             ("Current local time: " ++ w.now)), [], none⟩])
        (processFollowUp (streams.headD []) [] tcs).1 []
        (processFollowUp (streams.headD []) [] tcs).2 := by
  have hscan : scanMarker ([] ++ "[[get_current_time:]]".data) =
      some ⟨"get_current_time".data, [], 0, 21⟩ := by decide
  have hexec : execute_function w (String.mk "get_current_time".data)
      (String.mk []) = ("Current local time: " ++ w.now, w) := rfl
  rcases hPF : processFollowUp (streams.headD []) [] tcs with ⟨fAcc, tcs1⟩
  simp only [outerLoop, markerEvent, hscan, hPF, hexec]
  simp

/-- Every marker event in the initial stream is handled: over `nReps`
whole-marker events the loop executes the tool `nReps` times, appending
the two messages each time (the second of each pair being the
tool-result record), consuming one follow-up stream per marker and
collecting no tool calls. -/
theorem outerLoop_marker_chain (nReps : Nat) :
    ∀ (followups : List (List Event)) (msgs : List Message) (acc : List Char)
      (w : World),
    (∀ s ∈ followups, ∀ e ∈ s, e.toolCalls = []) →
    ∃ accEnd streams1 extra,
      outerLoop w (List.replicate nReps markerEvent) followups msgs acc [] [] =
        (accEnd, [], msgs ++ extra, [], w, streams1) ∧
      extra.length = 2 * nReps ∧
      ∀ k, k < nReps → extra[2 * k + 1]? =
        some ⟨"assistant", some (toolResultText "get_current_time".data
          ("Current local time: " ++ w.now)), [], none⟩ := by
  induction nReps with
  | zero =>
    intro followups msgs acc w _
    exact ⟨acc, followups, [], by simp [outerLoop], rfl, by omega⟩
  | succ nr ih =>
    intro followups msgs acc w hFol
    have htcs : (processFollowUp (followups.headD []) [] []).2 = [] := by
      rcases headD_nil_or_mem followups with hh | hh
      · rw [hh]; rfl
      · exact processFollowUp_tcs _ [] [] (fun e2 he2 => hFol _ hh e2 he2)
    obtain ⟨accEnd, streams1, extra, hout, hlen, hget⟩ :=
      ih followups.tail
        (msgs ++
          [⟨"assistant", some (acc ++ ("Current local time: " ++ w.now).data),
            [], none⟩,
           ⟨"assistant", some (toolResultText "get_current_time".data
             ("Current local time: " ++ w.now)), [], none⟩])
        ((processFollowUp (followups.headD []) [] []).1) w
        (fun s hs => hFol s (List.mem_of_mem_tail hs))
    refine ⟨accEnd, streams1,
      [⟨"assistant", some (acc ++ ("Current local time: " ++ w.now).data),
        [], none⟩,
       ⟨"assistant", some (toolResultText "get_current_time".data
         ("Current local time: " ++ w.now)), [], none⟩] ++ extra, ?_, ?_, ?_⟩
    · rw [List.replicate_succ, outerLoop_marker_step, htcs, hout]
      simp
    · simp [hlen]
      omega
    · intro k hk
      cases k with
      | zero => simp
      | succ k2 =>
        have h2k : (2 : Nat) ≤ 2 * (k2 + 1) + 1 := by omega
        rw [List.getElem?_append_right (by simpa using h2k)]
        have : 2 * (k2 + 1) + 1 - 2 = 2 * k2 + 1 := by omega
        rw [show ([⟨"assistant", some (acc ++ ("Current local time: " ++ w.now).data),
            [], none⟩,
           (⟨"assistant", some (toolResultText "get_current_time".data
             ("Current local time: " ++ w.now)), [], none⟩ : Message)] : List Message).length
            = 2 from rfl, this]
        exact hget k2 (by omega)

/-- C7 amended: marker handling repeats for each marker completed in the
initial stream — every one of `nReps` chained markers triggers a tool
execution, two message appends and a fresh follow-up stream, for
arbitrary `nReps` (an unbounded chain within one turn is supported) —
but markers inside the restarted follow-up streams are not scanned
(see the counterexample), whatever those streams carry. -/
theorem c7_marker_chain_over_initial_stream (w : World) (msgs : List Message)
    (nReps : Nat) (followups : List (List Event))
    (hFol : ∀ s ∈ followups, ∀ e ∈ s, e.toolCalls = []) :
    ∃ finalText extra,
      get_devstral_response w (List.replicate nReps markerEvent) followups msgs =
        (finalText, msgs ++ extra, w) ∧
      extra.length = 2 * nReps ∧
      ∀ k, k < nReps → extra[2 * k + 1]? =
        some ⟨"assistant", some (toolResultText "get_current_time".data
          ("Current local time: " ++ w.now)), [], none⟩ := by
  obtain ⟨accEnd, streams1, extra, hout, hlen, hget⟩ :=
    outerLoop_marker_chain nReps followups msgs [] w hFol
  refine ⟨accEnd, extra, ?_, hlen, hget⟩
  unfold get_devstral_response
  rw [hout]
  simp

/-- Witness for C7's amended theorem: a chain of three markers with a
follow-up stream that itself carries a marker. -/
theorem c7_marker_chain_witness :
    ∃ finalText extra,
      get_devstral_response testWorld (List.replicate 3 markerEvent)
        [[⟨some "x [[web_search:q]]".data, [], none⟩]] [sysMsg] =
        (finalText, [sysMsg] ++ extra, testWorld) ∧
      extra.length = 2 * 3 ∧
      ∀ k, k < 3 → extra[2 * k + 1]? =
        some ⟨"assistant", some (toolResultText "get_current_time".data
          ("Current local time: " ++ testWorld.now)), [], none⟩ :=
  c7_marker_chain_over_initial_stream testWorld [sysMsg] 3
    [[⟨some "x [[web_search:q]]".data, [], none⟩]] (by decide)

end DevstralChat
